import Mathlib

/-!
Verification of the rust101 guessing game
(src/rust101/02_guessing_game/guessing_game/src/main.rs).

The program is a console loop: it generates a secret number once, then
repeatedly prompts, reads a line from stdin, trims it, parses it as a `u32`,
echoes the guess, compares it to the secret and either reports too low /
too high and repeats, or reports success and breaks.

We embed the program shallowly: standard input is a list of read events
(either a delivered line or an I/O failure), standard output is a list of
printed strings, and `run` consumes the event list one event per loop
iteration, mirroring the Rust loop body statement by statement.
-/

namespace GuessingGame

/-- Unicode scalar values with the White_Space property, which is what
Rust's `char::is_whitespace` (used by `str::trim`) tests. -/
def isRustWhitespace (c : Char) : Bool :=
  c.toNat == 0x09 || c.toNat == 0x0A || c.toNat == 0x0B || c.toNat == 0x0C ||
  c.toNat == 0x0D || c.toNat == 0x20 || c.toNat == 0x85 || c.toNat == 0xA0 ||
  c.toNat == 0x1680 ||
  c.toNat == 0x2000 || c.toNat == 0x2001 || c.toNat == 0x2002 ||
  c.toNat == 0x2003 || c.toNat == 0x2004 || c.toNat == 0x2005 ||
  c.toNat == 0x2006 || c.toNat == 0x2007 || c.toNat == 0x2008 ||
  c.toNat == 0x2009 || c.toNat == 0x200A || c.toNat == 0x2028 ||
  c.toNat == 0x2029 || c.toNat == 0x202F || c.toNat == 0x205F ||
  c.toNat == 0x3000

/-- Rust's `str::trim`: remove leading and trailing whitespace.
Modelled on the character list of the string. -/
def trim (s : String) : String :=
  ⟨(((s.data.dropWhile isRustWhitespace).reverse.dropWhile
      isRustWhitespace).reverse)⟩

/-- ASCII decimal digit test, as used by integer parsing in Rust
(`char::to_digit 10` succeeds exactly on `0`-`9` for ASCII input). -/
def isAsciiDigit (c : Char) : Bool :=
  decide (48 ≤ c.toNat) && decide (c.toNat ≤ 57)

/-- Sign handling of Rust's `u32::from_str`: a single leading `+` is
skipped; any other first character (including `-`, since `u32` is
unsigned) is left for the digit scan, where it fails. -/
def stripPlus (cs : List Char) : List Char :=
  match cs with
  | [] => []
  | c :: rest => if c = '+' then rest else c :: rest

/-- Accumulate the value of a digit string the way `from_str_radix` does:
left to right, multiplying by the radix and adding the digit. -/
def decimalVal (cs : List Char) : Nat :=
  cs.foldl (fun acc c => acc * 10 + (c.toNat - 48)) 0

/-- Rust's `str::parse::<u32>()`, as `Option Nat`: after an optional `+`
there must be at least one character, all characters must be ASCII
digits, and the value must fit in 32 bits; otherwise `Err` (here `none`).
This is the shadowing `let guess: u32 = match guess.trim().parse()` site. -/
def parse_u32 (s : String) : Option Nat :=
  let ds := stripPlus s.data
  if ds = [] then none
  else if ds.all isAsciiDigit then
    let n := decimalVal ds
    if n < 4294967296 then some n else none
  else none

/-- Rust's `Ord::cmp` on `u32` values (here `Nat` below `2^32`). -/
def cmpNat (a b : Nat) : Ordering :=
  if a < b then .lt else if a = b then .eq else .gt

/-- Modelled from the spec: `rand::thread_rng().gen_range(lo..=hi)` of the
`rand` crate (not part of this repository) returns a value drawn from the
inclusive range `lo..=hi`; we model the draw as a function of an abstract
seed. -/
def gen_range (lo hi seed : Nat) : Nat :=
  lo + seed % (hi + 1 - lo)

/-- The secret: `let secret_number = rand::thread_rng().gen_range(1..=100)`. -/
def secret_number (seed : Nat) : Nat :=
  gen_range 1 100 seed

/-- One stdin read observation: either `read_line` delivers a line
(its `Ok` case) or it fails (its `Err` case). -/
inductive Event
  | line (s : String)
  | readErr
deriving DecidableEq

/-- The prompt printed at the top of every iteration. -/
def promptMsg : String := "Guess a number between 0 and 100."

/-- The echo `println!("Your guess: {guess}")`. -/
def echoMsg (guess : Nat) : String := "Your guess: " ++ toString guess

/-- Message of the `Ordering::Less` arm. -/
def tooLowMsg : String := "Too low - try again."

/-- Message of the `Ordering::Greater` arm. -/
def tooHighMsg : String := "Too high - try again."

/-- Message of the `Ordering::Equal` arm. -/
def correctMsg (secret : Nat) : String :=
  "Correct - the secret number was " ++ toString secret

/-- How one loop iteration ended. -/
inductive IterResult
  | retry
  | tooLow
  | tooHigh
  | correct
  | ioPanic
deriving DecidableEq

/-- One iteration of the loop body, given the one read event it consumes:
print the prompt, read the line (a failure panics), trim and parse it
(a failure restarts the loop), echo the guess, compare it with the secret
and branch on the ordering. Returns how the iteration ended together with
everything it printed. -/
def iterate (secret : Nat) (ev : Event) : IterResult × List String :=
  match ev with
  | .readErr => (.ioPanic, [promptMsg])
  | .line input =>
    match parse_u32 (trim input) with
    | none => (.retry, [promptMsg])
    | some guess =>
      match cmpNat guess secret with
      | .lt => (.tooLow, [promptMsg, echoMsg guess, tooLowMsg])
      | .gt => (.tooHigh, [promptMsg, echoMsg guess, tooHighMsg])
      | .eq => (.correct, [promptMsg, echoMsg guess, correctMsg secret])

/-- Observable outcome of a run: the loop broke out normally, the program
panicked, or the supplied input was exhausted with the loop still going
(the next iteration has printed its prompt and is blocked on a read).
Each constructor carries everything printed to stdout. -/
inductive RunResult
  | terminated (out : List String)
  | panicked (msg : String) (out : List String)
  | pending (out : List String)
deriving DecidableEq

/-- Prefix earlier output onto a later outcome. -/
def prependOut (pre : List String) : RunResult → RunResult
  | .terminated o => .terminated (pre ++ o)
  | .panicked m o => .panicked m (pre ++ o)
  | .pending o => .pending (pre ++ o)

/-- The `loop` of `main`: consume one read event per iteration.
`Err(_) => continue` and the two non-equal orderings repeat the loop;
`Ordering::Equal` breaks; a `read_line` failure hits
`.expect("Failed to read guess.")`. -/
def run (secret : Nat) : List Event → RunResult
  | [] => .pending [promptMsg]
  | ev :: rest =>
    match iterate secret ev with
    | (.ioPanic, out) => .panicked "Failed to read guess." out
    | (.correct, out) => .terminated out
    | (.retry, out) => prependOut out (run secret rest)
    | (.tooLow, out) => prependOut out (run secret rest)
    | (.tooHigh, out) => prependOut out (run secret rest)

/-- Everything a run printed to stdout. -/
def runOut : RunResult → List String
  | .terminated o => o
  | .panicked _ o => o
  | .pending o => o

/-- Number of `read_line` calls a run executes: one per iteration,
including the final one. -/
def runReads (secret : Nat) : List Event → Nat
  | [] => 0
  | ev :: rest =>
    match (iterate secret ev).1 with
    | .ioPanic => 1
    | .correct => 1
    | .retry => 1 + runReads secret rest
    | .tooLow => 1 + runReads secret rest
    | .tooHigh => 1 + runReads secret rest

/-- Number of loop iterations a run starts. -/
def runIters (secret : Nat) : List Event → Nat
  | [] => 0
  | ev :: rest =>
    match (iterate secret ev).1 with
    | .ioPanic => 1
    | .correct => 1
    | .retry => 1 + runIters secret rest
    | .tooLow => 1 + runIters secret rest
    | .tooHigh => 1 + runIters secret rest

/-- `main`: generate the secret once from the thread rng, then loop. -/
def main_run (seed : Nat) (evs : List Event) : RunResult :=
  run (secret_number seed) evs

/-- Messages `main` can print: the prompt, a guess echo, and the three
comparison results. -/
def allowedMsg (m : String) : Prop :=
  m = promptMsg ∨ (∃ g, m = echoMsg g) ∨ m = tooLowMsg ∨ m = tooHighMsg ∨
    ∃ n, m = correctMsg n

/-- Character of a decimal digit value. -/
def digitChar (d : Nat) : Char :=
  match d with
  | 0 => '0' | 1 => '1' | 2 => '2' | 3 => '3' | 4 => '4'
  | 5 => '5' | 6 => '6' | 7 => '7' | 8 => '8' | 9 => '9'
  | _ => '*'

/-- Canonical decimal digit string of a natural number (most significant
digit first), as Rust's `Display` for integers produces. -/
def natDecimal (n : Nat) : List Char :=
  if _h : n < 10 then [digitChar n]
  else natDecimal (n / 10) ++ [digitChar (n % 10)]
decreasing_by exact Nat.div_lt_self (by omega) (by omega)

/-! Helper lemmas about the comparison and the loop step. -/

theorem cmpNat_lt {a b : Nat} (h : a < b) : cmpNat a b = .lt := by
  simp [cmpNat, h]

theorem cmpNat_eq {a b : Nat} (h : a = b) : cmpNat a b = .eq := by
  subst h; simp [cmpNat]

theorem cmpNat_gt {a b : Nat} (h : b < a) : cmpNat a b = .gt := by
  unfold cmpNat
  rw [if_neg (by omega), if_neg (by omega)]

theorem iterate_readErr (secret : Nat) :
    iterate secret Event.readErr = (IterResult.ioPanic, [promptMsg]) := rfl

theorem iterate_parse_fail {secret : Nat} {s : String}
    (hp : parse_u32 (trim s) = none) :
    iterate secret (Event.line s) = (IterResult.retry, [promptMsg]) := by
  simp [iterate, hp]

theorem iterate_lt {secret g : Nat} {s : String}
    (hp : parse_u32 (trim s) = some g) (h : g < secret) :
    iterate secret (Event.line s) =
      (IterResult.tooLow, [promptMsg, echoMsg g, tooLowMsg]) := by
  simp [iterate, hp, cmpNat_lt h]

theorem iterate_gt {secret g : Nat} {s : String}
    (hp : parse_u32 (trim s) = some g) (h : secret < g) :
    iterate secret (Event.line s) =
      (IterResult.tooHigh, [promptMsg, echoMsg g, tooHighMsg]) := by
  simp [iterate, hp, cmpNat_gt h]

theorem iterate_eq {secret g : Nat} {s : String}
    (hp : parse_u32 (trim s) = some g) (h : g = secret) :
    iterate secret (Event.line s) =
      (IterResult.correct, [promptMsg, echoMsg g, correctMsg secret]) := by
  simp [iterate, hp, cmpNat_eq h]

theorem run_cons_retry {secret : Nat} {ev : Event} {out : List String}
    (rest : List Event) (h : iterate secret ev = (IterResult.retry, out)) :
    run secret (ev :: rest) = prependOut out (run secret rest) := by
  simp [run, h]

theorem run_cons_tooLow {secret : Nat} {ev : Event} {out : List String}
    (rest : List Event) (h : iterate secret ev = (IterResult.tooLow, out)) :
    run secret (ev :: rest) = prependOut out (run secret rest) := by
  simp [run, h]

theorem run_cons_tooHigh {secret : Nat} {ev : Event} {out : List String}
    (rest : List Event) (h : iterate secret ev = (IterResult.tooHigh, out)) :
    run secret (ev :: rest) = prependOut out (run secret rest) := by
  simp [run, h]

theorem run_cons_correct {secret : Nat} {ev : Event} {out : List String}
    (rest : List Event) (h : iterate secret ev = (IterResult.correct, out)) :
    run secret (ev :: rest) = RunResult.terminated out := by
  simp [run, h]

theorem run_cons_ioPanic {secret : Nat} {ev : Event} {out : List String}
    (rest : List Event) (h : iterate secret ev = (IterResult.ioPanic, out)) :
    run secret (ev :: rest) = RunResult.panicked "Failed to read guess." out := by
  simp [run, h]

/-! The claims. -/

/-- C1: the loop terminates exactly when the parsed guess equals the secret:
an iteration exits the loop iff its parsed guess equals the secret; on a
strictly smaller or larger guess the program continues as the same loop on
the remaining input with the same secret, and on an equal guess it prints
the success message and terminates. -/
theorem C1_loop_exit_iff_guess_eq_secret
    (secret : Nat) (s : String) (rest : List Event) (g : Nat)
    (hp : parse_u32 (trim s) = some g) :
    ((iterate secret (Event.line s)).1 = IterResult.correct ↔ g = secret) ∧
    (g ≠ secret →
      run secret (Event.line s :: rest) =
        prependOut (iterate secret (Event.line s)).2 (run secret rest)) ∧
    (g = secret →
      run secret (Event.line s :: rest) =
        RunResult.terminated [promptMsg, echoMsg g, correctMsg secret]) := by
  rcases Nat.lt_trichotomy g secret with h | h | h
  · refine ⟨?_, ?_, ?_⟩
    · rw [iterate_lt hp h]; simp; omega
    · intro _
      rw [iterate_lt hp h]
      exact run_cons_tooLow rest (iterate_lt hp h)
    · intro he; omega
  · refine ⟨?_, ?_, ?_⟩
    · rw [iterate_eq hp h]; simp [h]
    · intro hne; exact absurd h hne
    · intro _; exact run_cons_correct rest (iterate_eq hp h)
  · refine ⟨?_, ?_, ?_⟩
    · rw [iterate_gt hp h]; simp; omega
    · intro _
      rw [iterate_gt hp h]
      exact run_cons_tooHigh rest (iterate_gt hp h)
    · intro he; omega

/-- C1 witness at secret 50 with guesses 10 and 50. -/
theorem C1_loop_exit_iff_guess_eq_secret_witness :
    parse_u32 (trim "50") = some 50 ∧
    (((iterate 50 (Event.line "50")).1 = IterResult.correct ↔ (50 : Nat) = 50) ∧
     ((50 : Nat) ≠ 50 →
       run 50 (Event.line "50" :: []) =
         prependOut (iterate 50 (Event.line "50")).2 (run 50 [])) ∧
     ((50 : Nat) = 50 →
       run 50 (Event.line "50" :: []) =
         RunResult.terminated [promptMsg, echoMsg 50, correctMsg 50])) :=
  ⟨by decide, C1_loop_exit_iff_guess_eq_secret 50 "50" [] 50 (by decide)⟩

/-- C2: when parsing the trimmed line fails, the iteration prints only the
prompt (no guess echo, no comparison message) and the loop restarts on the
remaining input with the same secret. -/
theorem C2_parse_failure_skips_iteration
    (secret : Nat) (s : String) (rest : List Event)
    (hp : parse_u32 (trim s) = none) :
    iterate secret (Event.line s) = (IterResult.retry, [promptMsg]) ∧
    run secret (Event.line s :: rest) =
      prependOut [promptMsg] (run secret rest) := by
  refine ⟨iterate_parse_fail hp, ?_⟩
  exact run_cons_retry rest (iterate_parse_fail hp)

/-- C2 witness on the non-numeric line "hello". -/
theorem C2_parse_failure_skips_iteration_witness :
    parse_u32 (trim "hello") = none ∧
    (iterate 42 (Event.line "hello") = (IterResult.retry, [promptMsg]) ∧
     run 42 (Event.line "hello" :: []) =
       prependOut [promptMsg] (run 42 [])) :=
  ⟨by decide, C2_parse_failure_skips_iteration 42 "hello" [] (by decide)⟩

/-- C4: a failed `read_line` hits `.expect("Failed to read guess.")`:
the whole program panics with that message rather than retrying. -/
theorem C4_read_failure_aborts (secret : Nat) (rest : List Event) :
    run secret (Event.readErr :: rest) =
      RunResult.panicked "Failed to read guess." [promptMsg] :=
  run_cons_ioPanic rest (iterate_readErr secret)

theorem prependOut_ne_panicked {r : RunResult}
    (h : ∀ m o, r ≠ RunResult.panicked m o) (pre : List String) :
    ∀ m o, prependOut pre r ≠ RunResult.panicked m o := by
  intro m o
  cases r with
  | terminated o' => simp [prependOut]
  | pending o' => simp [prependOut]
  | panicked m' o' => exact absurd rfl (h m' o')

theorem runOut_prependOut (pre : List String) (r : RunResult) :
    runOut (prependOut pre r) = pre ++ runOut r := by
  cases r <;> simp [prependOut, runOut]

theorem iterate_out_allowed (secret : Nat) (ev : Event) :
    ∀ m ∈ (iterate secret ev).2, allowedMsg m := by
  intro m hm
  cases ev with
  | readErr =>
    rw [iterate_readErr] at hm
    simp at hm
    exact Or.inl hm
  | line s =>
    cases hp : parse_u32 (trim s) with
    | none =>
      rw [iterate_parse_fail hp] at hm
      simp at hm
      exact Or.inl hm
    | some g =>
      rcases Nat.lt_trichotomy g secret with h | h | h
      · rw [iterate_lt hp h] at hm
        simp at hm
        rcases hm with hm | hm | hm
        · exact Or.inl hm
        · exact Or.inr (Or.inl ⟨g, hm⟩)
        · exact Or.inr (Or.inr (Or.inl hm))
      · rw [iterate_eq hp h] at hm
        simp at hm
        rcases hm with hm | hm | hm
        · exact Or.inl hm
        · exact Or.inr (Or.inl ⟨g, hm⟩)
        · exact Or.inr (Or.inr (Or.inr (Or.inr ⟨secret, hm⟩)))
      · rw [iterate_gt hp h] at hm
        simp at hm
        rcases hm with hm | hm | hm
        · exact Or.inl hm
        · exact Or.inr (Or.inl ⟨g, hm⟩)
        · exact Or.inr (Or.inr (Or.inr (Or.inl hm)))

/-- C3: on any stream of delivered lines (no I/O failures), the program
never panics: every iteration either retries after a parse failure or
performs the comparison and continues or terminates normally. -/
theorem C3_no_crash_on_any_line (secret : Nat) (evs : List Event) :
    (∀ e ∈ evs, ∃ s, e = Event.line s) →
    ∀ m o, run secret evs ≠ RunResult.panicked m o := by
  induction evs with
  | nil => intro _ m o; simp [run]
  | cons ev rest ih =>
    intro hl
    obtain ⟨s, rfl⟩ := hl ev (List.mem_cons_self ev rest)
    have hrest : ∀ e ∈ rest, ∃ s, e = Event.line s :=
      fun e he => hl e (List.mem_cons_of_mem _ he)
    cases hp : parse_u32 (trim s) with
    | none =>
      rw [run_cons_retry rest (iterate_parse_fail hp)]
      exact prependOut_ne_panicked (ih hrest) _
    | some g =>
      rcases Nat.lt_trichotomy g secret with h | h | h
      · rw [run_cons_tooLow rest (iterate_lt hp h)]
        exact prependOut_ne_panicked (ih hrest) _
      · rw [run_cons_correct rest (iterate_eq hp h)]
        intro m o
        simp
      · rw [run_cons_tooHigh rest (iterate_gt hp h)]
        exact prependOut_ne_panicked (ih hrest) _

/-- C3 witness on a stream with non-numeric text, an out-of-range number
and a correct guess. -/
theorem C3_no_crash_on_any_line_witness :
    (∀ e ∈ [Event.line "junk", Event.line "4294967296", Event.line "101",
            Event.line "50"], ∃ s, e = Event.line s) ∧
    ∀ m o, run 50 [Event.line "junk", Event.line "4294967296",
        Event.line "101", Event.line "50"] ≠ RunResult.panicked m o :=
  ⟨by intro e he; fin_cases he <;> exact ⟨_, rfl⟩,
   C3_no_crash_on_any_line 50 _
     (by intro e he; fin_cases he <;> exact ⟨_, rfl⟩)⟩

/-- C5: `main` draws the secret once and then loops; in each iteration a
parsed guess below the secret prints the too-low message and repeats, a
guess above prints the too-high message and repeats, and an equal guess
prints the secret and terminates. -/
theorem C5_pipeline_order :
    (∀ seed evs, main_run seed evs = run (secret_number seed) evs) ∧
    ∀ secret s rest g, parse_u32 (trim s) = some g →
      (g < secret → run secret (Event.line s :: rest) =
          prependOut [promptMsg, echoMsg g, tooLowMsg] (run secret rest)) ∧
      (secret < g → run secret (Event.line s :: rest) =
          prependOut [promptMsg, echoMsg g, tooHighMsg] (run secret rest)) ∧
      (g = secret → run secret (Event.line s :: rest) =
          RunResult.terminated [promptMsg, echoMsg g, correctMsg secret]) := by
  refine ⟨fun seed evs => rfl, fun secret s rest g hp => ?_⟩
  exact ⟨fun h => run_cons_tooLow rest (iterate_lt hp h),
         fun h => run_cons_tooHigh rest (iterate_gt hp h),
         fun h => run_cons_correct rest (iterate_eq hp h)⟩

/-- C5 witness: a low guess at secret 10, exercising the too-low branch. -/
theorem C5_pipeline_order_witness :
    main_run 3 [] = run (secret_number 3) [] ∧
    parse_u32 (trim "7") = some 7 ∧
    run 10 (Event.line "7" :: []) =
      prependOut [promptMsg, echoMsg 7, tooLowMsg] (run 10 []) :=
  ⟨C5_pipeline_order.1 3 [], by decide,
   (C5_pipeline_order.2 10 "7" [] 7 (by decide)).1 (by decide)⟩

/-- C6: the only effects are the modelled ones: every printed string is the
prompt, a guess echo or a comparison result, and the number of `read_line`
calls equals the number of loop iterations (one read per iteration). -/
theorem C6_one_read_per_iteration_and_allowed_output
    (secret : Nat) (evs : List Event) :
    (∀ m ∈ runOut (run secret evs), allowedMsg m) ∧
    runReads secret evs = runIters secret evs := by
  constructor
  · induction evs with
    | nil =>
      intro m hm
      simp [run, runOut] at hm
      exact Or.inl hm
    | cons ev rest ih =>
      intro m hm
      have hout := iterate_out_allowed secret ev
      rcases hi : iterate secret ev with ⟨r, out⟩
      rw [hi] at hout
      cases r with
      | retry =>
        rw [run_cons_retry rest hi, runOut_prependOut] at hm
        rcases List.mem_append.mp hm with h | h
        · exact hout m h
        · exact ih m h
      | tooLow =>
        rw [run_cons_tooLow rest hi, runOut_prependOut] at hm
        rcases List.mem_append.mp hm with h | h
        · exact hout m h
        · exact ih m h
      | tooHigh =>
        rw [run_cons_tooHigh rest hi, runOut_prependOut] at hm
        rcases List.mem_append.mp hm with h | h
        · exact hout m h
        · exact ih m h
      | correct =>
        rw [run_cons_correct rest hi] at hm
        exact hout m hm
      | ioPanic =>
        rw [run_cons_ioPanic rest hi] at hm
        exact hout m hm
  · induction evs with
    | nil => rfl
    | cons ev rest ih =>
      cases hi : (iterate secret ev).1 <;> simp [runReads, runIters, hi, ih]

/-- C6 witness on a one-line run that guesses correctly. -/
theorem C6_one_read_per_iteration_and_allowed_output_witness :
    promptMsg ∈ runOut (run 50 [Event.line "50"]) ∧ allowedMsg promptMsg ∧
    runReads 50 [Event.line "50"] = runIters 50 [Event.line "50"] :=
  ⟨by decide,
   (C6_one_read_per_iteration_and_allowed_output 50 [Event.line "50"]).1
     promptMsg (by decide),
   (C6_one_read_per_iteration_and_allowed_output 50 [Event.line "50"]).2⟩

/-- C7: the secret drawn by `gen_range(1..=100)` lies in `1..=100` for
every seed, while the prompt says "between 0 and 100"; hence a parsed
guess of 0 is always strictly below the secret, never ends the loop, and
the iteration repeats with the too-low message. -/
theorem C7_secret_in_1_100_and_zero_never_wins :
    promptMsg = "Guess a number between 0 and 100." ∧
    ∀ seed, (1 ≤ secret_number seed ∧ secret_number seed ≤ 100) ∧
      ∀ s rest, parse_u32 (trim s) = some 0 →
        (iterate (secret_number seed) (Event.line s)).1 = IterResult.tooLow ∧
        run (secret_number seed) (Event.line s :: rest) =
          prependOut [promptMsg, echoMsg 0, tooLowMsg]
            (run (secret_number seed) rest) := by
  refine ⟨rfl, fun seed => ⟨⟨?_, ?_⟩, ?_⟩⟩
  · unfold secret_number gen_range
    omega
  · unfold secret_number gen_range
    have := Nat.mod_lt seed (show 0 < 100 + 1 - 1 by omega)
    omega
  · intro s rest hp
    have hlt : 0 < secret_number seed := by
      unfold secret_number gen_range
      omega
    exact ⟨by rw [iterate_lt hp hlt], run_cons_tooLow rest (iterate_lt hp hlt)⟩

/-- C7 witness at seed 7 and the literal input line "0". -/
theorem C7_secret_in_1_100_and_zero_never_wins_witness :
    parse_u32 (trim "0") = some 0 ∧
    (1 ≤ secret_number 7 ∧ secret_number 7 ≤ 100) ∧
    (iterate (secret_number 7) (Event.line "0")).1 = IterResult.tooLow :=
  ⟨by decide, (C7_secret_in_1_100_and_zero_never_wins.2 7).1,
   ((C7_secret_in_1_100_and_zero_never_wins.2 7).2 "0" [] (by decide)).1⟩

/-! Lemmas about decimal digit strings, trimming and parsing. -/

theorem digitChar_toNat {d : Nat} (h : d < 10) :
    (digitChar d).toNat = 48 + d := by
  interval_cases d <;> rfl

theorem natDecimal_ne_nil (n : Nat) : natDecimal n ≠ [] := by
  rw [natDecimal]
  split <;> simp

theorem natDecimal_digits (n : Nat) :
    ∀ c ∈ natDecimal n, 48 ≤ c.toNat ∧ c.toNat ≤ 57 := by
  induction n using Nat.strong_induction_on with
  | _ n ih =>
    intro c hc
    rw [natDecimal] at hc
    split at hc
    · next h =>
      simp at hc
      subst hc
      rw [digitChar_toNat h]
      omega
    · next h =>
      rcases List.mem_append.mp hc with h1 | h1
      · exact ih (n / 10) (Nat.div_lt_self (by omega) (by omega)) c h1
      · simp at h1
        subst h1
        rw [digitChar_toNat (Nat.mod_lt n (by omega))]
        have := Nat.mod_lt n (show 0 < 10 by omega)
        omega

theorem decimalVal_single (c : Char) : decimalVal [c] = c.toNat - 48 := by
  simp [decimalVal]

theorem decimalVal_append (cs : List Char) (c : Char) :
    decimalVal (cs ++ [c]) = decimalVal cs * 10 + (c.toNat - 48) := by
  simp [decimalVal, List.foldl_append]

theorem decimalVal_natDecimal (n : Nat) : decimalVal (natDecimal n) = n := by
  induction n using Nat.strong_induction_on with
  | _ n ih =>
    rw [natDecimal]
    split
    · next h =>
      rw [decimalVal_single, digitChar_toNat h]
      omega
    · next h =>
      rw [decimalVal_append, ih (n / 10) (Nat.div_lt_self (by omega) (by omega)),
        digitChar_toNat (Nat.mod_lt n (by omega))]
      omega

theorem not_ws_of_digit {c : Char} (h1 : 48 ≤ c.toNat) (h2 : c.toNat ≤ 57) :
    isRustWhitespace c = false := by
  simp [isRustWhitespace]
  omega

theorem ne_plus_of_digit {c : Char} (h1 : 48 ≤ c.toNat) : c ≠ '+' :=
  fun h => absurd (h ▸ h1) (by decide)

theorem isAsciiDigit_true {c : Char} (h1 : 48 ≤ c.toNat) (h2 : c.toNat ≤ 57) :
    isAsciiDigit c = true := by
  simp [isAsciiDigit]
  omega

theorem dropWhile_append_all {p : Char → Bool} {pre : List Char}
    (h : ∀ c ∈ pre, p c = true) (cs : List Char) :
    (pre ++ cs).dropWhile p = cs.dropWhile p := by
  induction pre with
  | nil => rfl
  | cons a l ih =>
    have ha : p a = true := h a (List.mem_cons_self a l)
    rw [List.cons_append, List.dropWhile_cons_of_pos ha]
    exact ih (fun c hc => h c (List.mem_cons_of_mem _ hc))

theorem dropWhile_cons_false {p : Char → Bool} {c : Char} (h : p c = false)
    (cs : List Char) : (c :: cs).dropWhile p = c :: cs :=
  List.dropWhile_cons_of_neg (by simp [h])

theorem trim_sandwich (pre core post : List Char)
    (hne : core ≠ [])
    (hpre : ∀ c ∈ pre, isRustWhitespace c = true)
    (hpost : ∀ c ∈ post, isRustWhitespace c = true)
    (hcore : ∀ c ∈ core, isRustWhitespace c = false) :
    trim ⟨pre ++ core ++ post⟩ = ⟨core⟩ := by
  obtain ⟨c, cs, rfl⟩ := List.exists_cons_of_ne_nil hne
  show String.mk ((((pre ++ (c :: cs) ++ post).dropWhile
      isRustWhitespace).reverse.dropWhile isRustWhitespace).reverse) =
    String.mk (c :: cs)
  have h1 : (pre ++ (c :: cs) ++ post).dropWhile isRustWhitespace =
      (c :: cs) ++ post := by
    rw [List.append_assoc, dropWhile_append_all hpre, List.cons_append,
      dropWhile_cons_false (hcore c (List.mem_cons_self c cs)) (cs ++ post)]
  have h2 : ((c :: cs) ++ post).reverse.dropWhile isRustWhitespace =
      (c :: cs).reverse := by
    rw [List.reverse_append,
      dropWhile_append_all (fun x hx => hpost x (List.mem_reverse.mp hx))]
    obtain ⟨d, ds, hd⟩ :=
      List.exists_cons_of_ne_nil (show (c :: cs).reverse ≠ [] by simp)
    have hdmem : d ∈ (c :: cs) := by
      rw [← List.mem_reverse, hd]
      exact List.mem_cons_self d ds
    rw [hd]
    exact dropWhile_cons_false (hcore d hdmem) ds
  rw [h1, h2, List.reverse_reverse]

theorem parse_u32_of_digits {cs : List Char} (hne : cs ≠ [])
    (hd : ∀ c ∈ cs, 48 ≤ c.toNat ∧ c.toNat ≤ 57) :
    parse_u32 ⟨cs⟩ =
      if decimalVal cs < 4294967296 then some (decimalVal cs) else none := by
  obtain ⟨c, rest, rfl⟩ := List.exists_cons_of_ne_nil hne
  have hplus : c ≠ '+' := ne_plus_of_digit (hd c (List.mem_cons_self c rest)).1
  have hsp : stripPlus (c :: rest) = c :: rest := by
    show (if c = '+' then rest else c :: rest) = c :: rest
    rw [if_neg hplus]
  have hall : (c :: rest).all isAsciiDigit = true := by
    rw [List.all_eq_true]
    intro x hx
    have hb := hd x hx
    simp [isAsciiDigit_true hb.1 hb.2]
  simp [parse_u32, hsp, hall]

theorem trim_natDecimal (n : Nat) : trim ⟨natDecimal n⟩ = ⟨natDecimal n⟩ := by
  have hcore : ∀ c ∈ natDecimal n, isRustWhitespace c = false := fun c hc =>
    not_ws_of_digit (natDecimal_digits n c hc).1 (natDecimal_digits n c hc).2
  have h := trim_sandwich [] (natDecimal n) [] (natDecimal_ne_nil n)
    (by simp) (by simp) hcore
  simpa using h

theorem parse_u32_natDecimal {n : Nat} (hn : n < 4294967296) :
    parse_u32 ⟨natDecimal n⟩ = some n := by
  rw [parse_u32_of_digits (natDecimal_ne_nil n) (natDecimal_digits n),
    decimalVal_natDecimal, if_pos hn]

/-- C8: the guess is parsed as a `u32`: a leading minus sign always fails
to parse, a value of `2^32` or more overflows and fails, every value below
`2^32` (including 0 and values above 100) parses to itself; a parse
failure makes the iteration retry with only the prompt printed, and a
representable value is accepted and compared (the iteration is not a
retry). -/
theorem C8_u32_parse_bounds :
    (∀ cs : List Char, parse_u32 ⟨'-' :: cs⟩ = none) ∧
    (∀ n : Nat, 4294967296 ≤ n → parse_u32 ⟨natDecimal n⟩ = none) ∧
    (∀ n : Nat, n < 4294967296 → parse_u32 ⟨natDecimal n⟩ = some n) ∧
    (∀ secret s rest, parse_u32 (trim s) = none →
      run secret (Event.line s :: rest) =
        prependOut [promptMsg] (run secret rest)) ∧
    (∀ secret n, n < 4294967296 →
      parse_u32 (trim ⟨natDecimal n⟩) = some n ∧
      (iterate secret (Event.line ⟨natDecimal n⟩)).1 ≠ IterResult.retry ∧
      (iterate secret (Event.line ⟨natDecimal n⟩)).1 ≠ IterResult.ioPanic) := by
  refine ⟨?_, ?_, ?_, ?_, ?_⟩
  · intro cs
    have hsp : stripPlus ('-' :: cs) = '-' :: cs := by
      show (if '-' = '+' then cs else '-' :: cs) = '-' :: cs
      rw [if_neg (by decide)]
    have hm : isAsciiDigit '-' = false := by decide
    simp [parse_u32, hsp, hm]
  · intro n hn
    rw [parse_u32_of_digits (natDecimal_ne_nil n) (natDecimal_digits n),
      decimalVal_natDecimal, if_neg (by omega)]
  · intro n hn
    exact parse_u32_natDecimal hn
  · intro secret s rest hp
    exact run_cons_retry rest (iterate_parse_fail hp)
  · intro secret n hn
    have hp : parse_u32 (trim ⟨natDecimal n⟩) = some n := by
      rw [trim_natDecimal]
      exact parse_u32_natDecimal hn
    refine ⟨hp, ?_, ?_⟩
    · rcases Nat.lt_trichotomy n secret with h | h | h
      · simp [iterate_lt hp h]
      · simp [iterate_eq hp h]
      · simp [iterate_gt hp h]
    · rcases Nat.lt_trichotomy n secret with h | h | h
      · simp [iterate_lt hp h]
      · simp [iterate_eq hp h]
      · simp [iterate_gt hp h]

/-- C8 witness: "-5" fails, 4294967296 overflows, 300 and 0 parse, "x"
retries, 300 is compared. -/
theorem C8_u32_parse_bounds_witness :
    parse_u32 ⟨['-', '5']⟩ = none ∧
    (4294967296 ≤ 4294967296 ∧ parse_u32 ⟨natDecimal 4294967296⟩ = none) ∧
    ((300 : Nat) < 4294967296 ∧ parse_u32 ⟨natDecimal 300⟩ = some 300) ∧
    (parse_u32 (trim "x") = none ∧
      run 50 (Event.line "x" :: []) = prependOut [promptMsg] (run 50 [])) ∧
    ((iterate 50 (Event.line ⟨natDecimal 300⟩)).1 ≠ IterResult.retry) :=
  ⟨C8_u32_parse_bounds.1 ['-', '5'],
   ⟨by decide, C8_u32_parse_bounds.2.1 4294967296 (by decide)⟩,
   ⟨by decide, C8_u32_parse_bounds.2.2.1 300 (by decide)⟩,
   ⟨by decide, C8_u32_parse_bounds.2.2.2.1 50 "x" [] (by decide)⟩,
   (C8_u32_parse_bounds.2.2.2.2 50 300 (by decide)).2.1⟩

/-- C9: for every value below `2^32`, a line made of its decimal digits
surrounded by any leading and trailing whitespace (newline included) is
trimmed and then parses to that value. -/
theorem C9_trimmed_decimal_parses (n : Nat) (pre post : List Char)
    (hn : n < 4294967296)
    (hpre : ∀ c ∈ pre, isRustWhitespace c = true)
    (hpost : ∀ c ∈ post, isRustWhitespace c = true) :
    parse_u32 (trim ⟨pre ++ natDecimal n ++ post⟩) = some n := by
  have hcore : ∀ c ∈ natDecimal n, isRustWhitespace c = false := fun c hc =>
    not_ws_of_digit (natDecimal_digits n c hc).1 (natDecimal_digits n c hc).2
  rw [trim_sandwich pre (natDecimal n) post (natDecimal_ne_nil n) hpre hpost
    hcore]
  exact parse_u32_natDecimal hn

/-- C9 witness: " 42\n" (a space before, a newline after) parses to 42. -/
theorem C9_trimmed_decimal_parses_witness :
    (42 : Nat) < 4294967296 ∧
    (∀ c ∈ [' '], isRustWhitespace c = true) ∧
    (∀ c ∈ ['\n'], isRustWhitespace c = true) ∧
    parse_u32 (trim ⟨[' '] ++ natDecimal 42 ++ ['\n']⟩) = some 42 :=
  ⟨by decide, by decide, by decide,
   C9_trimmed_decimal_parses 42 [' '] ['\n'] (by decide) (by decide)
     (by decide)⟩

end GuessingGame
